import Mathlib

/-!
Shallow embedding of the fire-risk IoT pipeline (`RaspberryPi/F_index.py` and
`RaspberryPi/wind_reader.py`) and proofs of the specified properties.

Conventions of the embedding:
* Python floats that only ever hold decimal sensor values and derived indices
  are modelled as rationals (`ℚ`);
* UTC timestamps at second precision are modelled by their integer epoch;
  the ISO rendering `strftime("%Y-%m-%dT%H:%M:%SZ")` is modelled by
  `isoOfEpoch` below, and `parse_iso8601` is modelled by passing alongside an
  ISO string the epoch it parses to (the code only calls the alert path after
  a successful parse);
* bytes are `Nat` values below 256, frames are `List Nat`;
* external effects (the time-series store, the SMS send) are modelled by
  explicit success flags and by returning the calls that were performed.
-/

namespace FireIoT

/-- Configuration values read from the environment at process start in
`F_index.py`: `F_THRESHOLD`, `ALERT_COOLDOWN` (seconds), `SYNC_WINDOW_S`
(seconds). -/
structure Config where
  threshold : ℚ
  cooldown : Int
  syncWindow : Int
  deriving Repr, DecidableEq

/-! ## Unit normalization (`to_kmh`) -/

/-- The unit-string normalization inside `to_kmh`:
`unit.strip().lower().replace(" ", "")`, on the character list — strip
whitespace at both ends, lowercase, then drop every space character
(replacing each single-space occurrence by the empty string is exactly
dropping every space). -/
def normalizeUnit (s : String) : String :=
  String.mk
    ((((s.data.dropWhile Char.isWhitespace).reverse.dropWhile
        Char.isWhitespace).reverse.map Char.toLower).filter (fun c => c ≠ ' '))

/-- `to_kmh(u_raw, unit)` from `F_index.py`, for a numeric `u_raw`, with the
configured `DEFAULT_WIND_INPUT_UNIT` passed explicitly as `defaultUnit`.
`unit or DEFAULT_WIND_INPUT_UNIT` in Python picks the default exactly when
`unit` is `None` or the empty string (falsy).  A recognized km/h spelling is
identity, a recognized m/s spelling is ×3.6, and any other spelling falls
through to the final `return u * 3.6` line. -/
def to_kmh (u : ℚ) (unit : Option String) (defaultUnit : String) : ℚ :=
  let chosen :=
    match unit with
    | none => defaultUnit
    | some s => if s = "" then defaultUnit else s
  let unitNorm := normalizeUnit chosen
  if unitNorm = "km/h" ∨ unitNorm = "kmh" ∨ unitNorm = "kph" then u
  else if unitNorm = "m/s" ∨ unitNorm = "ms" ∨ unitNorm = "mps" then u * 3.6
  else u * 3.6

/-! ## Deduplicated store write (`write_f_to_influx`) -/

/-- Outcome of one deduplicated write, following the spec's taxonomy. -/
inductive WriteOutcome where
  | written
  | skippedDuplicate
  | failed
  deriving Repr, DecidableEq

/-- `write_f_to_influx(f_value, ts_iso)` from `F_index.py`, acting on the
`last_write_ts_iso` dedup state.  `storeOk` says whether the external
`influx.write_points` call would succeed or raise.  The third component lists
the store calls actually performed (value and timestamp).  When the store
raises, the exception propagates before `last_write_ts_iso` is assigned, so
the dedup state is returned untouched. -/
def write_f_to_influx (last : Option String) (storeOk : Bool) (fv : ℚ) (tsIso : String) :
    Option String × WriteOutcome × List (ℚ × String) :=
  if last = some tsIso then
    (last, .skippedDuplicate, [])
  else if storeOk then
    (some tsIso, .written, [(fv, tsIso)])
  else
    (last, .failed, [(fv, tsIso)])

/-- A process lifetime of dedup write calls: each call carries whether the
external store would succeed, the value and the timestamp.  Returns the final
dedup state and the timestamps of the *successful* store writes, in order. -/
def runWrites (last : Option String) : List (Bool × ℚ × String) → Option String × List String
  | [] => (last, [])
  | (ok, fv, ts) :: rest =>
    let r := write_f_to_influx last ok fv ts
    let rec' := runWrites r.1 rest
    match r.2.1 with
    | .written => (rec'.1, ts :: rec'.2)
    | _ => rec'

/-! ## Alert dispatcher (`maybe_send_alert`) -/

/-- Alert dispatcher state from `F_index.py`: `last_alert_epoch_data` (epoch
of the last admitted event) and `last_alert_ts_iso` (its ISO string). -/
structure AlertState where
  last_alert_epoch_data : Option Int
  last_alert_ts_iso : Option String
  deriving Repr, DecidableEq

/-- The decision taken by one `maybe_send_alert` call, following the spec's
`AlertOutcome` taxonomy (`admitted` means the state was recorded and the SMS
send is attempted after the critical section). -/
inductive AlertOutcome where
  | belowThreshold
  | duplicateTimestamp
  | nonMonotonic
  | cooldown
  | admitted
  deriving Repr, DecidableEq

/-- `maybe_send_alert(f_value, ts_iso)` from `F_index.py`, for an event whose
timestamp parses: `tsEpoch` is the epoch value `parse_iso8601(ts_iso)`
yields (the function returns early, with no state change, when the parse
fails, which no claim exercises).  Mirrors the decision order of the source:
threshold, duplicate ISO timestamp, first-ever alert, non-monotonic delta,
cooldown, admit; on admit both state fields are recorded before the send is
attempted. -/
def maybe_send_alert (cfg : Config) (st : AlertState) (fValue : ℚ)
    (tsIso : String) (tsEpoch : Int) : AlertState × AlertOutcome :=
  if fValue ≤ cfg.threshold then (st, .belowThreshold)
  else if st.last_alert_ts_iso = some tsIso then (st, .duplicateTimestamp)
  else
    match st.last_alert_epoch_data with
    | none =>
        (⟨some tsEpoch, some tsIso⟩, .admitted)
    | some lastEpoch =>
        let delta := tsEpoch - lastEpoch
        if delta ≤ 0 then (st, .nonMonotonic)
        else if delta < cfg.cooldown then (st, .cooldown)
        else (⟨some tsEpoch, some tsIso⟩, .admitted)

/-! ## Timestamp rendering -/

/-- Zero-padded decimal rendering of `n` to at least `w` digits. -/
def padNum (w n : Nat) : String :=
  let s := toString n
  String.mk (List.replicate (w - s.length) '0') ++ s

/-- Gregorian date (year, month, day) of a day number (days since
1970-01-01), by the standard civil-calendar algorithm. -/
def civilFromDays (z0 : Int) : Int × Int × Int :=
  let z := z0 + 719468
  let era := z.fdiv 146097
  let doe := (z.emod 146097).toNat
  let yoe := (doe - doe / 1460 + doe / 36524 - doe / 146096) / 365
  let y : Int := (yoe : Int) + era * 400
  let doy := doe - (365 * yoe + yoe / 4 - yoe / 100)
  let mp := (5 * doy + 2) / 153
  let d := doy - (153 * mp + 2) / 5 + 1
  let m : Int := (mp : Int) + (if mp < 10 then 3 else -9)
  (y + (if m ≤ 2 then 1 else 0), m, (d : Int))

/-- `ref_ts.strftime("%Y-%m-%dT%H:%M:%SZ")` on the UTC datetime with the
given epoch in seconds — the reference-timestamp rendering in
`compute_and_store_if_ready`. -/
def isoOfEpoch (e : Int) : String :=
  let days := e.fdiv 86400
  let sod := (e.emod 86400).toNat
  let c := civilFromDays days
  padNum 4 c.1.toNat ++ "-" ++ padNum 2 c.2.1.toNat ++ "-" ++ padNum 2 c.2.2.toNat ++
    "T" ++ padNum 2 (sod / 3600) ++ ":" ++ padNum 2 (sod % 3600 / 60) ++ ":" ++
    padNum 2 (sod % 60) ++ "Z"

/-! ## Fusion step (`compute_and_store_if_ready`) -/

/-- The in-memory state of the `F_index.py` process: the latest sensor slots
(`latest_dht`, `latest_wind`, datetimes as epochs), the write dedup state and
the alert state. -/
structure SysState where
  latest_dht_t : Option ℚ
  latest_dht_h : Option ℚ
  latest_dht_ts : Option Int
  latest_wind_u : Option ℚ
  latest_wind_ts : Option Int
  last_write_ts_iso : Option String
  alert : AlertState
  deriving Repr, DecidableEq

/-- Observable effects of one `compute_and_store_if_ready` call: the metric
computed (`f_val`, `none` when the call bails out before computing one), the
external store calls performed, whether a store write succeeded, and whether
an SMS send was attempted. -/
structure StepEffects where
  metric : Option ℚ
  storeCalls : List (ℚ × String)
  storeWritten : Bool
  smsAttempted : Bool
  deriving Repr, DecidableEq

/-- The no-op effect record. -/
def noEffects : StepEffects := ⟨none, [], false, false⟩

/-- `compute_and_store_if_ready()` from `F_index.py`.  `storeOk` models
whether `influx.write_points` succeeds.  A raising store makes
`write_f_to_influx` propagate the exception into the `except` clause, so
`maybe_send_alert` is not reached for that event.  The alert path receives
the reference epoch as the parse of `ts_iso` (the string is the canonical
rendering of that epoch, and `parse_iso8601` inverts the rendering). -/
def compute_and_store_if_ready (cfg : Config) (st : SysState) (storeOk : Bool) :
    SysState × StepEffects :=
  match st.latest_dht_t, st.latest_dht_h, st.latest_wind_u,
        st.latest_dht_ts, st.latest_wind_ts with
  | some t, some h, some u, some tsDht, some tsWind =>
    if |tsDht - tsWind| > cfg.syncWindow then (st, noEffects)
    else
      let refTs := if tsDht ≥ tsWind then tsDht else tsWind
      let tsIso := isoOfEpoch refTs
      let fmi := 10 - 0.25 * (t - h)
      if fmi ≤ 0 then (st, noEffects)
      else
        let uEff := if u ≥ 1 then u else 1
        let fVal := uEff / fmi
        let w := write_f_to_influx st.last_write_ts_iso storeOk fVal tsIso
        match w.2.1 with
        | .failed =>
            ({ st with last_write_ts_iso := w.1 },
             ⟨some fVal, w.2.2, false, false⟩)
        | wOut =>
            let a := maybe_send_alert cfg st.alert fVal tsIso refTs
            ({ st with last_write_ts_iso := w.1, alert := a.1 },
             ⟨some fVal, w.2.2, decide (wOut = .written), decide (a.2 = .admitted)⟩)
  | _, _, _, _, _ => (st, noEffects)

/-! ## Modbus RTU framing (`wind_reader.py`) -/

/-- One shift step of the Modbus CRC16 inner loop: shift right one bit and
xor in the reflected polynomial `0xA001` when the low bit was set. -/
def crcShift (x : Nat) : Nat :=
  if x % 2 = 1 then (x / 2) ^^^ 0xA001 else x / 2

/-- Fold one input byte into the CRC accumulator: xor the byte in, then run
eight shift steps (`modbus_crc16`'s inner loop). -/
def crcByteStep (crc b : Nat) : Nat :=
  crcShift^[8] (crc ^^^ b)

/-- `modbus_crc16(data)` from `wind_reader.py`: init `0xFFFF`, reflected,
polynomial `0xA001`, final `& 0xFFFF` mask. -/
def modbus_crc16 (data : List Nat) : Nat :=
  (data.foldl crcByteStep 0xFFFF) &&& 0xFFFF

/-- `build_read_holding_registers(slave, start_addr, reg_count)`:
`struct.pack(">B B H H", slave, 0x03, start_addr, reg_count)` with the CRC
appended little-endian. -/
def build_read_holding_registers (slave startAddr regCount : Nat) : List Nat :=
  let pdu := [slave, 0x03, startAddr / 256, startAddr % 256,
              regCount / 256, regCount % 256]
  let crc := modbus_crc16 pdu
  pdu ++ [crc % 256, crc / 256]

/-- The distinct `ValueError`s raised by `parse_read_holding_registers`, plus
`shortData` for the `struct.error` that `struct.unpack` raises when the data
slice is shorter than `2 * reg_count` bytes. -/
inductive ParseErr where
  | shortResp
  | badCrc
  | badSlave (b : Nat)
  | modbusExc (func : Nat) (code : Int)
  | badFunc (f : Nat)
  | badByteCount
  | shortData
  deriving Repr, DecidableEq

/-- Big-endian 16-bit unpack, `struct.unpack(">HH…", data)`. -/
def u16sBE : List Nat → List Nat
  | hi :: lo :: rest => (256 * hi + lo) :: u16sBE rest
  | _ => []

/-- The checks of `parse_read_holding_registers` that follow the length and
CRC checks, on `payload = resp[:-2]` (at least 3 bytes long there): slave
address, function code (with the Modbus-exception sub-case), declared byte
count, and the register extraction. -/
def parseChecked (payload : List Nat) (slave regCount : Nat) :
    Except ParseErr (List Nat) :=
  if payload.getD 0 0 ≠ slave then .error (.badSlave (payload.getD 0 0))
  else if payload.getD 1 0 ≠ 0x03 then
    (if payload.getD 1 0 &&& 0x80 ≠ 0 then
      .error (.modbusExc (payload.getD 1 0)
        (if 2 < payload.length then (payload.getD 2 0 : Int) else -1))
    else .error (.badFunc (payload.getD 1 0)))
  else
    let byteCount := payload.getD 2 0
    if byteCount ≠ 2 * regCount then .error .badByteCount
    else
      let data := (payload.drop 3).take byteCount
      if data.length ≠ 2 * regCount then .error .shortData
      else .ok (u16sBE data)

/-- `parse_read_holding_registers(resp, slave, reg_count)` from
`wind_reader.py`; each `raise` becomes an `Except.error`. -/
def parse_read_holding_registers (resp : List Nat) (slave regCount : Nat) :
    Except ParseErr (List Nat) :=
  if resp.length < 5 then .error .shortResp
  else
    let payload := resp.take (resp.length - 2)
    let crcRecv := resp.getD (resp.length - 2) 0 + 256 * resp.getD (resp.length - 1) 0
    if modbus_crc16 payload ≠ crcRecv then .error .badCrc
    else parseChecked payload slave regCount

/-- Big-endian 16-bit pack of register values (inverse of `u16sBE`). -/
def packU16BE : List Nat → List Nat
  | [] => []
  | v :: rest => v / 256 :: v % 256 :: packU16BE rest

/-- Modelled from the spec: the device-side encoder of a function-0x03
*response* frame, `[slave][0x03][byte_count][data…][CRC16 LE]` (§4.1's
response-validation rules read as a format).  The repository has no response
encoder — responses come from the anemometer — so this counterpart of
`parse_read_holding_registers` is reconstructed from the spec's words. -/
def build_response_frame (slave : Nat) (vals : List Nat) : List Nat :=
  let payload := slave :: 0x03 :: (2 * vals.length) :: packU16BE vals
  let crc := modbus_crc16 payload
  payload ++ [crc % 256, crc / 256]

/-- Flip bit `j` (0-based, from the least significant bit) of byte `i` of a
frame. -/
def flipBit (frame : List Nat) (i j : Nat) : List Nat :=
  frame.set i ((frame.getD i 0) ^^^ 2 ^ j)

/-! ## Helper lemmas -/

theorem to_kmh_some_eq (u : ℚ) (unit d : String) (hne : unit ≠ "") :
    to_kmh u (some unit) d =
      if normalizeUnit unit = "km/h" ∨ normalizeUnit unit = "kmh" ∨ normalizeUnit unit = "kph"
      then u else u * 3.6 := by
  unfold to_kmh
  simp only [if_neg hne]
  split
  · rfl
  · split <;> rfl

/-! ## C4 — unit normalization -/

/-- C4 counterexample: with the configured default unit `km/h`, a reading
with the unrecognized unit string `knots` is *not* returned unchanged; the
code's final fallback multiplies by 3.6 regardless of the default unit. -/
theorem C4_counterexample :
    to_kmh 1 (some "knots") "km/h" = 18 / 5 ∧ (18 / 5 : ℚ) ≠ 1 := by
  constructor
  · rw [to_kmh_some_eq 1 "knots" "km/h" (by decide), if_neg (by decide)]
    norm_num
  · norm_num

/-- C4 (amended): the recognized km/h spellings are identity and the
recognized m/s spellings are ×3.6; an *absent or empty* unit string falls
back to the configured default unit's conversion; but a *present,
unrecognized* unit is always converted as m/s (×3.6), regardless of the
configured default unit. -/
theorem C4_to_kmh_conversion (u : ℚ) (unit d : String) :
    (unit ≠ "" →
      (normalizeUnit unit = "km/h" ∨ normalizeUnit unit = "kmh" ∨ normalizeUnit unit = "kph" →
        to_kmh u (some unit) d = u) ∧
      (¬ (normalizeUnit unit = "km/h" ∨ normalizeUnit unit = "kmh" ∨ normalizeUnit unit = "kph") →
        to_kmh u (some unit) d = u * 3.6)) ∧
    to_kmh u none d = to_kmh u (some d) d ∧
    to_kmh u (some "") d = to_kmh u none d := by
  refine ⟨fun hne => ⟨fun h => ?_, fun h => ?_⟩, ?_, ?_⟩
  · rw [to_kmh_some_eq u unit d hne, if_pos h]
  · rw [to_kmh_some_eq u unit d hne, if_neg h]
  · unfold to_kmh
    rcases eq_or_ne d "" with hd | hd
    · subst hd; rfl
    · simp only [if_neg hd]
  · unfold to_kmh
    rfl

/-- Witness for C4's amended theorem at concrete inputs. -/
theorem C4_to_kmh_conversion_witness :
    to_kmh 5 (some "kph") "m/s" = 5 ∧ to_kmh 5 (some "knots") "km/h" = 5 * 3.6 :=
  ⟨((C4_to_kmh_conversion 5 "kph" "m/s").1 (by decide)).1 (by decide),
   ((C4_to_kmh_conversion 5 "knots" "km/h").1 (by decide)).2 (by decide)⟩

/-! ## C5 — deduplicated store write -/

/-- C5: the deduplicated write skips without calling the store when the
timestamp equals `last_write_ts_iso`; otherwise it calls the store, records
the timestamp only on success, and leaves the dedup state untouched on
failure (so a retry with the same timestamp calls the store again); and two
successive calls with the same timestamp against a succeeding store perform
exactly one external store call. -/
theorem C5_write_dedup (last : Option String) (ok : Bool) (fv fv2 : ℚ) (ts : String) :
    (last = some ts →
      write_f_to_influx last ok fv ts = (last, .skippedDuplicate, [])) ∧
    (last ≠ some ts → ok = true →
      write_f_to_influx last ok fv ts = (some ts, .written, [(fv, ts)])) ∧
    (last ≠ some ts → ok = false →
      write_f_to_influx last ok fv ts = (last, .failed, [(fv, ts)])) ∧
    (last ≠ some ts →
      (write_f_to_influx (write_f_to_influx last false fv ts).1 ok fv2 ts).2.2.length = 1) ∧
    (last ≠ some ts →
      (write_f_to_influx last true fv ts).2.2.length +
        (write_f_to_influx (write_f_to_influx last true fv ts).1 true fv2 ts).2.2.length = 1) := by
  refine ⟨fun h => ?_, fun h hok => ?_, fun h hok => ?_, fun h => ?_, fun h => ?_⟩
  · simp [write_f_to_influx, h]
  · subst hok; simp [write_f_to_influx, h]
  · subst hok; simp [write_f_to_influx, h]
  · cases ok <;> simp [write_f_to_influx, h]
  · simp [write_f_to_influx, h]

/-- Witness for C5 at concrete inputs. -/
theorem C5_write_dedup_witness :
    (write_f_to_influx (some "t") true 1 "t" = (some "t", .skippedDuplicate, [])) ∧
    (write_f_to_influx none true 1 "t" = (some "t", .written, [(1, "t")])) ∧
    (write_f_to_influx none false 1 "t" = (none, .failed, [(1, "t")])) ∧
    (write_f_to_influx (write_f_to_influx none false 1 "t").1 true 2 "t").2.2.length = 1 ∧
    (write_f_to_influx none true 1 "t").2.2.length +
      (write_f_to_influx (write_f_to_influx none true 1 "t").1 true 2 "t").2.2.length = 1 := by
  have h1 := C5_write_dedup (some "t") true 1 2 "t"
  have h2 := C5_write_dedup none true 1 2 "t"
  have h3 := C5_write_dedup none false 1 2 "t"
  exact ⟨h1.1 rfl, h2.2.1 (by decide) rfl, h3.2.2.1 (by decide) rfl,
    h3.2.2.2.1 (by decide), h2.2.2.2.2 (by decide)⟩

/-! ## C6 — at-most-one persisted write per timestamp -/

/-- C6 counterexample: the dedup state remembers only the *last* written
timestamp, so over the sequence `a, b, a` of succeeding calls the timestamp
`a` is persisted twice — interleaving a different timestamp between two
calls carrying `a` defeats the at-most-one guarantee. -/
theorem C6_counterexample :
    ((runWrites none [(true, 1, "a"), (true, 1, "b"), (true, 1, "a")]).2).count "a" = 2 := by
  decide

/-- C6 (amended): over any process lifetime, the sequence of successful
store writes never carries the same timestamp twice *in a row*: a timestamp
can be persisted a second time only after a successful write with a
different timestamp intervenes.  Moreover the first successful write never
repeats the initially recorded timestamp. -/
theorem C6_no_consecutive_duplicate_writes (last : Option String)
    (calls : List (Bool × ℚ × String)) :
    ((runWrites last calls).2).Chain' (· ≠ ·) ∧
      ∀ w ∈ ((runWrites last calls).2).head?, last ≠ some w := by
  induction calls generalizing last with
  | nil => simp [runWrites]
  | cons c rest ih =>
    obtain ⟨ok, fv, ts⟩ := c
    by_cases h : last = some ts
    · have hw : write_f_to_influx last ok fv ts = (last, .skippedDuplicate, []) := by
        simp [write_f_to_influx, h]
      simp only [runWrites, hw]
      exact ih last
    · cases ok with
      | false =>
        have hw : write_f_to_influx last false fv ts = (last, .failed, [(fv, ts)]) := by
          simp [write_f_to_influx, h]
        simp only [runWrites, hw]
        exact ih last
      | true =>
        have hw : write_f_to_influx last true fv ts = (some ts, .written, [(fv, ts)]) := by
          simp [write_f_to_influx, h]
        simp only [runWrites, hw]
        refine ⟨List.Chain'.cons' (ih (some ts)).1 ?_, ?_⟩
        · intro y hy
          have := (ih (some ts)).2 y hy
          simpa using this
        · intro w hw2
          simp only [List.head?_cons, Option.mem_def, Option.some.injEq] at hw2
          subst hw2
          exact h

/-! ## C1 — alert dispatcher decision -/

/-- C1: decision table of `maybe_send_alert` for an event whose timestamp
parses to epoch `e`: at or below the threshold the call is suppressed with
no state change; a duplicate ISO timestamp is suppressed; with a previous
alert, a non-positive epoch gap is suppressed; a positive gap below the
cooldown is suppressed; otherwise the event is admitted and both state
fields are recorded (before the send is attempted).  Consequently, after an
admitted event at epoch `e`, an over-threshold evaluation with epoch in the
open interval `(e, e + cooldown)` is suppressed by cooldown, and one at
epoch `≥ e + cooldown` with a strictly greater (hence different) timestamp
and over-threshold value is admitted.  (Distinct epochs force distinct ISO
strings, since each string parses to exactly one epoch.) -/
theorem C1_alert_decision (cfg : Config) (st : AlertState) (f : ℚ) (iso : String) (e : Int) :
    (f ≤ cfg.threshold → maybe_send_alert cfg st f iso e = (st, .belowThreshold)) ∧
    (cfg.threshold < f → st.last_alert_ts_iso = some iso →
      maybe_send_alert cfg st f iso e = (st, .duplicateTimestamp)) ∧
    (cfg.threshold < f → st.last_alert_ts_iso ≠ some iso →
      ∀ le ∈ st.last_alert_epoch_data, e - le ≤ 0 →
        maybe_send_alert cfg st f iso e = (st, .nonMonotonic)) ∧
    (cfg.threshold < f → st.last_alert_ts_iso ≠ some iso →
      ∀ le ∈ st.last_alert_epoch_data, 0 < e - le → e - le < cfg.cooldown →
        maybe_send_alert cfg st f iso e = (st, .cooldown)) ∧
    (cfg.threshold < f → st.last_alert_ts_iso ≠ some iso →
      (st.last_alert_epoch_data = none ∨
        ∀ le ∈ st.last_alert_epoch_data, 0 < e - le ∧ cfg.cooldown ≤ e - le) →
      maybe_send_alert cfg st f iso e = (⟨some e, some iso⟩, .admitted)) ∧
    (∀ f2 iso2 e2, cfg.threshold < f2 → iso2 ≠ iso →
      (e < e2 → e2 < e + cfg.cooldown →
        maybe_send_alert cfg ⟨some e, some iso⟩ f2 iso2 e2
          = (⟨some e, some iso⟩, .cooldown)) ∧
      (e < e2 → e + cfg.cooldown ≤ e2 →
        maybe_send_alert cfg ⟨some e, some iso⟩ f2 iso2 e2
          = (⟨some e2, some iso2⟩, .admitted))) := by
  refine ⟨fun h => ?_, fun hf hdup => ?_, fun hf hdup le hle hdelta => ?_,
    fun hf hdup le hle h0 hcd => ?_, fun hf hdup hall => ?_,
    fun f2 iso2 e2 hf2 hiso2 => ⟨fun hlt hcd => ?_, fun hlt hcd => ?_⟩⟩
  · simp [maybe_send_alert, h]
  · simp [maybe_send_alert, not_le.mpr hf, hdup]
  · simp only [Option.mem_def] at hle
    simp [maybe_send_alert, not_le.mpr hf, hdup, hle, hdelta]
  · simp only [Option.mem_def] at hle
    have h1 : ¬ (e - le ≤ 0) := by omega
    simp [maybe_send_alert, not_le.mpr hf, hdup, hle, h1, hcd]
  · rcases hall with hnone | hsome
    · simp [maybe_send_alert, not_le.mpr hf, hdup, hnone]
    · cases hle : st.last_alert_epoch_data with
      | none => simp [maybe_send_alert, not_le.mpr hf, hdup, hle]
      | some le =>
        obtain ⟨h0, hcd⟩ := hsome le (by simp [hle])
        have h1 : ¬ (e - le ≤ 0) := by omega
        have h2 : ¬ (e - le < cfg.cooldown) := by omega
        simp [maybe_send_alert, not_le.mpr hf, hdup, hle, h1, h2]
  · have hne : ¬ (some iso = some iso2) := by simpa [eq_comm] using hiso2
    have h1 : ¬ (e2 - e ≤ 0) := by omega
    have h2 : e2 - e < cfg.cooldown := by omega
    simp [maybe_send_alert, not_le.mpr hf2, hne, h1, h2]
  · have hne : ¬ (some iso = some iso2) := by simpa [eq_comm] using hiso2
    have h1 : ¬ (e2 - e ≤ 0) := by omega
    have h2 : ¬ (e2 - e < cfg.cooldown) := by omega
    simp [maybe_send_alert, not_le.mpr hf2, hne, h1, h2]

/-- Witness for C1 at concrete inputs: threshold `1.5`, cooldown `60`;
a gap of 30 s since the last alert is suppressed by cooldown, a gap of 60 s
is admitted, and after that admission epoch 190 is again suppressed while
epoch 220 is admitted. -/
theorem C1_alert_decision_witness :
    maybe_send_alert ⟨3 / 2, 60, 0⟩ ⟨some 100, some "x"⟩ 2 "y" 130
      = (⟨some 100, some "x"⟩, .cooldown) ∧
    maybe_send_alert ⟨3 / 2, 60, 0⟩ ⟨some 100, some "x"⟩ 2 "z" 160
      = (⟨some 160, some "z"⟩, .admitted) ∧
    maybe_send_alert ⟨3 / 2, 60, 0⟩ ⟨some 160, some "z"⟩ 2 "w" 190
      = (⟨some 160, some "z"⟩, .cooldown) ∧
    maybe_send_alert ⟨3 / 2, 60, 0⟩ ⟨some 160, some "z"⟩ 2 "w" 220
      = (⟨some 220, some "w"⟩, .admitted) := by
  refine ⟨?_, ?_, ?_, ?_⟩
  · exact (C1_alert_decision ⟨3 / 2, 60, 0⟩ ⟨some 100, some "x"⟩ 2 "y" 130).2.2.2.1
      (by norm_num) (by decide) 100 rfl (by decide) (by decide)
  · exact (C1_alert_decision ⟨3 / 2, 60, 0⟩ ⟨some 100, some "x"⟩ 2 "z" 160).2.2.2.2.1
      (by norm_num) (by decide)
      (Or.inr (by
        rintro le hle
        simp only [Option.mem_def, Option.some.injEq] at hle
        subst hle
        exact ⟨by decide, by decide⟩))
  · exact ((C1_alert_decision ⟨3 / 2, 60, 0⟩ ⟨some 160, some "z"⟩ 2 "z" 160).2.2.2.2.2
      2 "w" 190 (by norm_num) (by decide)).1 (by decide) (by decide)
  · exact ((C1_alert_decision ⟨3 / 2, 60, 0⟩ ⟨some 160, some "z"⟩ 2 "z" 160).2.2.2.2.2
      2 "w" 220 (by norm_num) (by decide)).2 (by decide) (by decide)

/-! ## C2 — monotone alert epoch -/

/-- C2: starting from a state whose `last_alert_epoch_data` is `some le`,
one alert evaluation either leaves the whole alert state unchanged or
records a strictly larger epoch — so the recorded epoch is monotonically
non-decreasing across the process lifetime; and an event with epoch at most
`le` never changes the state and is never admitted (no SMS send), however
large `f_value` is. -/
theorem C2_alert_epoch_monotone (cfg : Config) (st : AlertState) (f : ℚ)
    (iso : String) (e le : Int) (h : st.last_alert_epoch_data = some le) :
    ((maybe_send_alert cfg st f iso e).1 = st ∨
      ((maybe_send_alert cfg st f iso e).1.last_alert_epoch_data = some e ∧ le < e)) ∧
    (e ≤ le →
      (maybe_send_alert cfg st f iso e).1 = st ∧
        (maybe_send_alert cfg st f iso e).2 ≠ .admitted) := by
  by_cases hf : f ≤ cfg.threshold
  · simp [maybe_send_alert, hf]
  · by_cases hdup : st.last_alert_ts_iso = some iso
    · simp [maybe_send_alert, hf, hdup]
    · by_cases hd : e - le ≤ 0
      · simp [maybe_send_alert, hf, hdup, h, hd]
      · by_cases hcd : e - le < cfg.cooldown
        · constructor
          · left
            simp [maybe_send_alert, hf, hdup, h, hd, hcd]
          · intro he
            omega
        · constructor
          · right
            refine ⟨?_, by omega⟩
            simp [maybe_send_alert, hf, hdup, h, hd, hcd]
          · intro he
            omega

/-- Witness for C2: an out-of-order event (epoch 50 against a last admitted
epoch of 100) with a huge `f_value` is suppressed with no state change. -/
theorem C2_alert_epoch_monotone_witness :
    (maybe_send_alert ⟨3 / 2, 60, 0⟩ ⟨some 100, some "x"⟩ 9 "y" 50).1
        = ⟨some 100, some "x"⟩ ∧
      (maybe_send_alert ⟨3 / 2, 60, 0⟩ ⟨some 100, some "x"⟩ 9 "y" 50).2 ≠ .admitted :=
  (C2_alert_epoch_monotone ⟨3 / 2, 60, 0⟩ ⟨some 100, some "x"⟩ 9 "y" 50 100 rfl).2
    (by decide)

/-! ## C3 — fusion computation -/

/-- With populated slots and a sync gap inside the window, the computed
metric is `max(wind, 1) / fmi` whenever `fmi > 0`, whatever the store and
dedup state do. -/
theorem compute_metric_eq (cfg : Config) (st : SysState) (ok : Bool) (t h u : ℚ)
    (td tw : Int) (ht : st.latest_dht_t = some t) (hh : st.latest_dht_h = some h)
    (hu : st.latest_wind_u = some u) (htd : st.latest_dht_ts = some td)
    (htw : st.latest_wind_ts = some tw) (hsync : |td - tw| ≤ cfg.syncWindow)
    (hfmi : 0 < 10 - 0.25 * (t - h)) :
    (compute_and_store_if_ready cfg st ok).2.metric
      = some ((if u ≥ 1 then u else 1) / (10 - 0.25 * (t - h))) := by
  simp only [compute_and_store_if_ready, ht, hh, hu, htd, htw,
    if_neg (not_lt.mpr hsync), if_neg (not_le.mpr hfmi)]
  cases hwo : (write_f_to_influx st.last_write_ts_iso ok
      ((if u ≥ 1 then u else 1) / (10 - 0.25 * (t - h)))
      (isoOfEpoch (if td ≥ tw then td else tw))).2.1 <;>
    simp [hwo]

/-- C3: whenever both sensor slots are populated and their timestamps are
within the synchronization window, the fusion step computes
`fmi = 10 − 0.25 × (temperature − humidity)`; if `fmi ≤ 0` it produces no
metric, performs no store call, and leaves the whole state (including dedup
and alert state) unchanged; otherwise the metric is
`effective_wind / fmi` with `effective_wind = max(wind, 1)`, so any wind
below 1 km/h uses exactly 1.  In particular `t = 30`, `h = 40` give
`fmi = 12.5` and wind 18 km/h gives `f_index = 1.44`. -/
theorem C3_fusion (cfg : Config) (st : SysState) (ok : Bool) (t h u : ℚ)
    (td tw : Int) (ht : st.latest_dht_t = some t) (hh : st.latest_dht_h = some h)
    (hu : st.latest_wind_u = some u) (htd : st.latest_dht_ts = some td)
    (htw : st.latest_wind_ts = some tw) (hsync : |td - tw| ≤ cfg.syncWindow) :
    (10 - 0.25 * (t - h) ≤ 0 →
      compute_and_store_if_ready cfg st ok = (st, noEffects)) ∧
    (0 < 10 - 0.25 * (t - h) →
      (compute_and_store_if_ready cfg st ok).2.metric
        = some (max u 1 / (10 - 0.25 * (t - h)))) ∧
    (0 < 10 - 0.25 * (t - h) → u < 1 →
      (compute_and_store_if_ready cfg st ok).2.metric
        = some (1 / (10 - 0.25 * (t - h)))) ∧
    (10 - 0.25 * ((30 : ℚ) - 40) = 12.5) ∧
    ((max (18 : ℚ) 1) / (10 - 0.25 * ((30 : ℚ) - 40)) = 1.44) := by
  refine ⟨fun hfmi => ?_, fun hfmi => ?_, fun hfmi hu1 => ?_, by norm_num, by norm_num⟩
  · simp only [compute_and_store_if_ready, ht, hh, hu, htd, htw,
      if_neg (not_lt.mpr hsync), if_pos hfmi]
  · rw [compute_metric_eq cfg st ok t h u td tw ht hh hu htd htw hsync hfmi]
    have hmax : (if u ≥ 1 then u else 1) = max u 1 := by
      by_cases h1 : 1 ≤ u
      · rw [if_pos h1, max_eq_left h1]
      · rw [if_neg h1, max_eq_right (le_of_not_le h1)]
    rw [hmax]
  · rw [compute_metric_eq cfg st ok t h u td tw ht hh hu htd htw hsync hfmi,
      if_neg (not_le.mpr hu1)]

/-- Witness for C3: the spec's concrete scenario (t = 30, h = 40, wind = 18,
synchronized timestamps) evaluated through the fusion step. -/
theorem C3_fusion_witness :
    (compute_and_store_if_ready ⟨3 / 2, 60, 0⟩
        ⟨some 30, some 40, some 0, some 18, some 0, none, ⟨none, none⟩⟩ true).2.metric
      = some (max 18 1 / (10 - 0.25 * ((30 : ℚ) - 40))) :=
  (C3_fusion ⟨3 / 2, 60, 0⟩
    ⟨some 30, some 40, some 0, some 18, some 0, none, ⟨none, none⟩⟩ true
    30 40 18 0 0 rfl rfl rfl rfl rfl (by decide)).2.1 (by norm_num)

/-! ## C10 — store failure suppresses the alert evaluation -/

/-- C10: when the slots are ready, the gap is inside the window, `fmi > 0`
and the reference timestamp is not a dedup duplicate, a raising store makes
`write_f_to_influx` propagate the exception into the caller's `except`
clause, so `maybe_send_alert` is never invoked for that event: even for an
over-threshold `f_index` the alert state is unchanged, no SMS send is
attempted, and nothing was persisted (the store call itself did happen and
raised). -/
theorem C10_store_failure_blocks_alert (cfg : Config) (st : SysState) (t h u : ℚ)
    (td tw : Int) (ht : st.latest_dht_t = some t) (hh : st.latest_dht_h = some h)
    (hu : st.latest_wind_u = some u) (htd : st.latest_dht_ts = some td)
    (htw : st.latest_wind_ts = some tw) (hsync : |td - tw| ≤ cfg.syncWindow)
    (hfmi : 0 < 10 - 0.25 * (t - h))
    (_hthr : cfg.threshold < (if u ≥ 1 then u else 1) / (10 - 0.25 * (t - h)))
    (hwr : st.last_write_ts_iso ≠ some (isoOfEpoch (if td ≥ tw then td else tw))) :
    (compute_and_store_if_ready cfg st false).1.alert = st.alert ∧
    (compute_and_store_if_ready cfg st false).2.smsAttempted = false ∧
    (compute_and_store_if_ready cfg st false).2.storeWritten = false ∧
    (compute_and_store_if_ready cfg st false).2.storeCalls ≠ [] := by
  have hw : write_f_to_influx st.last_write_ts_iso false
      ((if u ≥ 1 then u else 1) / (10 - 0.25 * (t - h)))
      (isoOfEpoch (if td ≥ tw then td else tw))
      = (st.last_write_ts_iso, .failed,
          [((if u ≥ 1 then u else 1) / (10 - 0.25 * (t - h)),
            isoOfEpoch (if td ≥ tw then td else tw))]) := by
    simp [write_f_to_influx, hwr]
  simp only [compute_and_store_if_ready, ht, hh, hu, htd, htw,
    if_neg (not_lt.mpr hsync), if_neg (not_le.mpr hfmi), hw]
  simp

/-- Witness for C10: wind 20 km/h against t = 30, h = 40 gives
`f_index = 1.6`, over the 1.5 threshold, yet with a failing store nothing is
sent and the alert state stays untouched. -/
theorem C10_store_failure_blocks_alert_witness :
    (compute_and_store_if_ready ⟨3 / 2, 60, 0⟩
        ⟨some 30, some 40, some 0, some 20, some 0, none, ⟨none, none⟩⟩ false).1.alert
      = (⟨none, none⟩ : AlertState) ∧
    (compute_and_store_if_ready ⟨3 / 2, 60, 0⟩
        ⟨some 30, some 40, some 0, some 20, some 0, none, ⟨none, none⟩⟩ false).2.smsAttempted
      = false := by
  have h := C10_store_failure_blocks_alert ⟨3 / 2, 60, 0⟩
    ⟨some 30, some 40, some 0, some 20, some 0, none, ⟨none, none⟩⟩
    30 40 20 0 0 rfl rfl rfl rfl rfl (by decide) (by norm_num)
    (by rw [if_pos (by norm_num : (20 : ℚ) ≥ 1)]; norm_num) (by decide)
  exact ⟨h.1, h.2.1⟩

/-! ## CRC16 linearity over GF(2) -/

theorem xor_div_two (a b : Nat) : (a ^^^ b) / 2 = a / 2 ^^^ b / 2 := by
  apply Nat.eq_of_testBit_eq
  intro i
  simp [Nat.testBit_div_two]

/-- The CRC shift step is GF(2)-linear. -/
theorem crcShift_xor (a b : Nat) : crcShift (a ^^^ b) = crcShift a ^^^ crcShift b := by
  unfold crcShift
  have hab : (a ^^^ b) % 2 = (a + b) % 2 := Nat.xor_mod_two_eq
  rcases Nat.mod_two_eq_zero_or_one a with ha | ha <;>
    rcases Nat.mod_two_eq_zero_or_one b with hb | hb
  · rw [if_neg (by omega), if_neg (by omega), if_neg (by omega), xor_div_two]
  · rw [if_pos (by omega), if_neg (by omega), if_pos (by omega), xor_div_two,
      Nat.xor_assoc]
  · rw [if_pos (by omega), if_pos (by omega), if_neg (by omega), xor_div_two,
      Nat.xor_assoc, Nat.xor_comm (b / 2) 0xA001, ← Nat.xor_assoc]
  · rw [if_neg (by omega), if_pos (by omega), if_pos (by omega), xor_div_two]
    rw [Nat.xor_assoc, Nat.xor_comm (b / 2) 0xA001, Nat.xor_cancel_left]

theorem crcShift_iter_xor (k a b : Nat) :
    crcShift^[k] (a ^^^ b) = crcShift^[k] a ^^^ crcShift^[k] b := by
  induction k generalizing a b with
  | zero => rfl
  | succ k ih =>
    rw [Function.iterate_succ_apply, Function.iterate_succ_apply,
      Function.iterate_succ_apply, crcShift_xor, ih]

theorem crcShift_lt (a : Nat) (ha : a < 65536) : crcShift a < 65536 := by
  unfold crcShift
  split
  · have h1 := Nat.xor_lt_two_pow (n := 16) (x := a / 2) (y := 0xA001)
      (by omega) (by norm_num)
    omega
  · omega

/-- The CRC shift step has trivial kernel on 16-bit values. -/
theorem crcShift_ne_zero (a : Nat) (ha : a < 65536) (hne : a ≠ 0) : crcShift a ≠ 0 := by
  unfold crcShift
  by_cases h2 : a % 2 = 1
  · rw [if_pos h2]
    intro h
    have h3 := Nat.xor_eq_zero.mp h
    omega
  · rw [if_neg h2]
    omega

theorem crcShift_iter_lt (k a : Nat) (ha : a < 65536) : crcShift^[k] a < 65536 := by
  induction k generalizing a with
  | zero => simpa using ha
  | succ k ih =>
    rw [Function.iterate_succ_apply]
    exact ih _ (crcShift_lt a ha)

theorem crcShift_iter_ne_zero (k a : Nat) (ha : a < 65536) (hne : a ≠ 0) :
    crcShift^[k] a ≠ 0 := by
  induction k generalizing a with
  | zero => simpa using hne
  | succ k ih =>
    rw [Function.iterate_succ_apply]
    exact ih _ (crcShift_lt a ha) (crcShift_ne_zero a ha hne)

theorem crcByteStep_xor_left (c d b : Nat) :
    crcByteStep (c ^^^ d) b = crcByteStep c b ^^^ crcShift^[8] d := by
  unfold crcByteStep
  rw [Nat.xor_assoc, Nat.xor_comm d b, ← Nat.xor_assoc, crcShift_iter_xor]

theorem crcByteStep_xor_right (c b e : Nat) :
    crcByteStep c (b ^^^ e) = crcByteStep c b ^^^ crcShift^[8] e := by
  unfold crcByteStep
  rw [← Nat.xor_assoc, crcShift_iter_xor]

/-- A difference xored into the CRC accumulator propagates linearly through
the byte fold. -/
theorem foldl_crc_xor (l : List Nat) (c d : Nat) :
    l.foldl crcByteStep (c ^^^ d)
      = l.foldl crcByteStep c ^^^ crcShift^[8 * l.length] d := by
  induction l generalizing c d with
  | nil => simp
  | cons b l ih =>
    simp only [List.foldl_cons, List.length_cons]
    rw [crcByteStep_xor_left, ih, show 8 * (l.length + 1) = 8 * l.length + 8 by ring,
      Function.iterate_add_apply]

theorem foldl_crc_lt (l : List Nat) (c : Nat) (hc : c < 65536)
    (hl : ∀ b ∈ l, b < 65536) : l.foldl crcByteStep c < 65536 := by
  induction l generalizing c with
  | nil => simpa using hc
  | cons b l ih =>
    simp only [List.foldl_cons]
    refine ih _ ?_ (fun x hx => hl x (by simp [hx]))
    unfold crcByteStep
    apply crcShift_iter_lt
    have hb : b < 65536 := hl b (by simp)
    have := Nat.xor_lt_two_pow (n := 16) (x := c) (y := b) (by omega) (by omega)
    omega

theorem modbus_crc16_lt (l : List Nat) : modbus_crc16 l < 65536 := by
  unfold modbus_crc16
  have := Nat.and_lt_two_pow (l.foldl crcByteStep 0xFFFF) (y := 0xFFFF) (n := 16)
    (by norm_num)
  omega

theorem modbus_crc16_eq_foldl (l : List Nat) (hl : ∀ b ∈ l, b < 65536) :
    modbus_crc16 l = l.foldl crcByteStep 0xFFFF := by
  unfold modbus_crc16
  have h1 : l.foldl crcByteStep 0xFFFF < 2 ^ 16 := by
    have := foldl_crc_lt l 0xFFFF (by norm_num) hl
    omega
  have h2 := Nat.and_pow_two_sub_one_of_lt_two_pow h1
  have h3 : (2 : Nat) ^ 16 - 1 = 65535 := by norm_num
  rw [h3] at h2
  exact h2

/-- Flipping one nonzero bit pattern inside one byte of the input changes
the CRC: the single-bit difference propagates injectively through the
remaining shift steps. -/
theorem modbus_crc16_flip_ne (l1 l2 : List Nat) (b e : Nat)
    (hl1 : ∀ x ∈ l1, x < 65536) (hl2 : ∀ x ∈ l2, x < 65536)
    (hb : b < 65536) (he16 : e < 65536) (he : e ≠ 0) :
    modbus_crc16 (l1 ++ (b ^^^ e) :: l2) ≠ modbus_crc16 (l1 ++ b :: l2) := by
  have hbe : b ^^^ e < 65536 := by
    have := Nat.xor_lt_two_pow (n := 16) (x := b) (y := e) (by omega) (by omega)
    omega
  rw [modbus_crc16_eq_foldl _ (by
        intro x hx
        rcases List.mem_append.mp hx with h | h
        · exact hl1 x h
        · rcases List.mem_cons.mp h with h | h
          · omega
          · exact hl2 x h),
      modbus_crc16_eq_foldl _ (by
        intro x hx
        rcases List.mem_append.mp hx with h | h
        · exact hl1 x h
        · rcases List.mem_cons.mp h with h | h
          · omega
          · exact hl2 x h)]
  rw [List.foldl_append, List.foldl_append]
  simp only [List.foldl_cons]
  rw [crcByteStep_xor_right, foldl_crc_xor]
  set X := l2.foldl crcByteStep
    (crcByteStep (l1.foldl crcByteStep 0xFFFF) b) with hX
  have hD : crcShift^[8 * l2.length] (crcShift^[8] e) ≠ 0 := by
    rw [← Function.iterate_add_apply]
    exact crcShift_iter_ne_zero _ e he16 he
  intro hcontra
  apply hD
  have h0 : X ^^^ crcShift^[8 * l2.length] (crcShift^[8] e) = X ^^^ 0 := by
    rw [Nat.xor_zero]
    exact hcontra
  exact Nat.xor_right_inj.mp h0

/-! ## Frame evaluation lemmas -/

theorem getD_append_two_left (l : List Nat) (a b : Nat) :
    (l ++ [a, b]).getD l.length 0 = a := by
  induction l with
  | nil => rfl
  | cons x l ih => simpa using ih

theorem getD_append_two_right (l : List Nat) (a b : Nat) :
    (l ++ [a, b]).getD (l.length + 1) 0 = b := by
  induction l with
  | nil => rfl
  | cons x l ih => simpa using ih

/-- Parsing a frame `payload ++ [t0, t1]` reduces to the CRC comparison
against the little-endian trailer followed by the remaining checks. -/
theorem parse_append_crc (payload : List Nat) (t0 t1 : Nat) (slave rc : Nat)
    (hlen : 3 ≤ payload.length) :
    parse_read_holding_registers (payload ++ [t0, t1]) slave rc
      = if modbus_crc16 payload ≠ t0 + 256 * t1 then .error .badCrc
        else parseChecked payload slave rc := by
  unfold parse_read_holding_registers
  have hl : (payload ++ [t0, t1]).length = payload.length + 2 := by simp
  rw [hl, if_neg (by omega)]
  rw [show payload.length + 2 - 2 = payload.length from by omega,
    show payload.length + 2 - 1 = payload.length + 1 from by omega]
  rw [List.take_left' rfl, getD_append_two_left, getD_append_two_right]

theorem parse_badcrc_of_ne (p0 p1 p2 p3 p4 p5 t0 t1 : Nat) (slave rc : Nat)
    (h : modbus_crc16 [p0, p1, p2, p3, p4, p5] ≠ t0 + 256 * t1) :
    parse_read_holding_registers [p0, p1, p2, p3, p4, p5, t0, t1] slave rc
      = .error .badCrc := by
  have heq := parse_append_crc [p0, p1, p2, p3, p4, p5] t0 t1 slave rc (by simp)
  rw [show [p0, p1, p2, p3, p4, p5] ++ [t0, t1]
      = [p0, p1, p2, p3, p4, p5, t0, t1] from rfl] at heq
  rw [heq, if_pos h]

theorem packU16BE_length (vals : List Nat) :
    (packU16BE vals).length = 2 * vals.length := by
  induction vals with
  | nil => rfl
  | cons v l ih => simp [packU16BE, ih]; omega

theorem u16sBE_packU16BE (vals : List Nat) : u16sBE (packU16BE vals) = vals := by
  induction vals with
  | nil => rfl
  | cons v l ih =>
    simp only [packU16BE, u16sBE, ih, List.cons.injEq, and_true]
    exact Nat.div_add_mod v 256

/-- A well-formed function-0x03 response frame parses back to exactly its
register values. -/
theorem parse_build_response (slave : Nat) (vals : List Nat) :
    parse_read_holding_registers (build_response_frame slave vals) slave vals.length
      = .ok vals := by
  unfold build_response_frame
  rw [parse_append_crc _ _ _ _ _ (by simp)]
  rw [Nat.mod_add_div, if_neg (by simp)]
  unfold parseChecked
  rw [if_neg (by simp)]
  rw [if_neg (by simp)]
  simp only [List.getD_cons_succ, List.getD_cons_zero, List.drop_succ_cons,
    List.drop_zero]
  rw [if_neg (by simp)]
  rw [← packU16BE_length vals, List.take_length, if_neg (by simp [packU16BE_length])]
  rw [u16sBE_packU16BE]

/-- Flipping any single bit of a generated request frame breaks the CRC
comparison, so the parser rejects the frame at the CRC check. -/
theorem parse_flipped_request (slave start count i j : Nat)
    (hs : slave < 256) (hst : start < 65536) (hc : count < 65536)
    (hi : i < 8) (hj : j < 8) :
    parse_read_holding_registers
      (flipBit (build_read_holding_registers slave start count) i j) slave count
      = .error .badCrc := by
  have h2jpos : (0 : Nat) < 2 ^ j := Nat.two_pow_pos j
  have h2j : (2 : Nat) ^ j < 256 := by
    have h := Nat.pow_le_pow_right (show 0 < 2 by norm_num) (show j ≤ 7 by omega)
    omega
  set C := modbus_crc16 [slave, 3, start / 256, start % 256,
    count / 256, count % 256] with hC
  have hd1 : start / 256 < 65536 := by omega
  have hd2 : start % 256 < 65536 := by omega
  have hd3 : count / 256 < 65536 := by omega
  have hd4 : count % 256 < 65536 := by omega
  have hCrec : C % 256 + 256 * (C / 256) = C := Nat.mod_add_div C 256
  interval_cases i
  · refine parse_badcrc_of_ne _ _ _ _ _ _ _ _ slave count ?_
    rw [Nat.mod_add_div]
    exact modbus_crc16_flip_ne []
      [3, start / 256, start % 256, count / 256, count % 256] slave (2 ^ j)
      (by simp) (by intro x hx; fin_cases hx <;> omega)
      (by omega) (by omega) (by omega)
  · refine parse_badcrc_of_ne _ _ _ _ _ _ _ _ slave count ?_
    rw [Nat.mod_add_div]
    exact modbus_crc16_flip_ne [slave]
      [start / 256, start % 256, count / 256, count % 256] 3 (2 ^ j)
      (by intro x hx; fin_cases hx; omega)
      (by intro x hx; fin_cases hx <;> omega)
      (by omega) (by omega) (by omega)
  · refine parse_badcrc_of_ne _ _ _ _ _ _ _ _ slave count ?_
    rw [Nat.mod_add_div]
    exact modbus_crc16_flip_ne [slave, 3]
      [start % 256, count / 256, count % 256] (start / 256) (2 ^ j)
      (by intro x hx; fin_cases hx <;> omega)
      (by intro x hx; fin_cases hx <;> omega)
      (by omega) (by omega) (by omega)
  · refine parse_badcrc_of_ne _ _ _ _ _ _ _ _ slave count ?_
    rw [Nat.mod_add_div]
    exact modbus_crc16_flip_ne [slave, 3, start / 256]
      [count / 256, count % 256] (start % 256) (2 ^ j)
      (by intro x hx; fin_cases hx <;> omega)
      (by intro x hx; fin_cases hx <;> omega)
      (by omega) (by omega) (by omega)
  · refine parse_badcrc_of_ne _ _ _ _ _ _ _ _ slave count ?_
    rw [Nat.mod_add_div]
    exact modbus_crc16_flip_ne [slave, 3, start / 256, start % 256]
      [count % 256] (count / 256) (2 ^ j)
      (by intro x hx; fin_cases hx <;> omega)
      (by intro x hx; fin_cases hx; omega)
      (by omega) (by omega) (by omega)
  · refine parse_badcrc_of_ne _ _ _ _ _ _ _ _ slave count ?_
    rw [Nat.mod_add_div]
    exact modbus_crc16_flip_ne [slave, 3, start / 256, start % 256, count / 256]
      [] (count % 256) (2 ^ j)
      (by intro x hx; fin_cases hx <;> omega)
      (by simp)
      (by omega) (by omega) (by omega)
  · refine parse_badcrc_of_ne _ _ _ _ _ _ _ _ slave count ?_
    have hg : (build_read_holding_registers slave start count).getD 6 0 = C % 256 := by
      rw [hC]
      rfl
    rw [hg, ← hC]
    intro heq
    have hmod : C % 256 < 256 := Nat.mod_lt _ (by norm_num)
    have hxlt : C % 256 ^^^ 2 ^ j < 256 := by
      have := Nat.xor_lt_two_pow (n := 8) (x := C % 256) (y := 2 ^ j)
        (by omega) (by omega)
      omega
    have heq2 : C % 256 ^^^ 2 ^ j = C % 256 := by omega
    have h0 : C % 256 ^^^ 2 ^ j = C % 256 ^^^ 0 := by
      rw [Nat.xor_zero]
      exact heq2
    have := Nat.xor_right_inj.mp h0
    omega
  · refine parse_badcrc_of_ne _ _ _ _ _ _ _ _ slave count ?_
    have hg : (build_read_holding_registers slave start count).getD 7 0 = C / 256 := by
      rw [hC]
      rfl
    rw [hg, ← hC]
    intro heq
    have heq2 : C / 256 ^^^ 2 ^ j = C / 256 := by omega
    have h0 : C / 256 ^^^ 2 ^ j = C / 256 ^^^ 0 := by
      rw [Nat.xor_zero]
      exact heq2
    have := Nat.xor_right_inj.mp h0
    omega

/-! ## C7 — frame round-trip and error detection -/

set_option maxRecDepth 16384 in
/-- C7 counterexample: `parse(encode(slave, start, count))` does not
round-trip.  `build_read_holding_registers` builds a *request* frame while
`parse_read_holding_registers` validates a *response* frame, so for the
valid in-range triple `(slave, start, count) = (2, 0, 1)` the parse of the
generated frame fails (at the declared-byte-count check) instead of
succeeding. -/
theorem C7_counterexample :
    parse_read_holding_registers (build_read_holding_registers 2 0 1) 2 1
      = .error .badByteCount := by
  rfl

/-- C7 (amended): the encoder and the parser are request/response
counterparts, so their literal composition fails; the round-trip that holds
is on response frames: parsing a well-formed function-0x03 response frame
(built from the spec's frame format) recovers exactly its register values;
and flipping any single bit of a frame generated by the encoder makes the
parser fail with a CRC protocol error — never a silent misparse. -/
theorem C7_response_roundtrip_and_bitflip :
    (∀ slave vals, slave < 256 → (∀ v ∈ vals, v < 65536) → vals.length ≤ 127 →
      parse_read_holding_registers (build_response_frame slave vals) slave
        vals.length = .ok vals) ∧
    (∀ slave start count i j, slave < 256 → start < 65536 → count < 65536 →
      i < 8 → j < 8 →
      parse_read_holding_registers
        (flipBit (build_read_holding_registers slave start count) i j) slave count
        = .error .badCrc) :=
  ⟨fun slave vals _ _ _ => parse_build_response slave vals,
   fun slave start count i j hs hst hc hi hj =>
     parse_flipped_request slave start count i j hs hst hc hi hj⟩

/-- Witness for C7's amended theorem: a response carrying register value
4660 round-trips, and flipping bit 5 of byte 3 of the generated request
`(2, 0, 1)` is rejected at the CRC check. -/
theorem C7_response_roundtrip_and_bitflip_witness :
    parse_read_holding_registers (build_response_frame 2 [4660]) 2 1 = .ok [4660] ∧
    parse_read_holding_registers
        (flipBit (build_read_holding_registers 2 0 1) 3 5) 2 1
      = .error .badCrc :=
  ⟨C7_response_roundtrip_and_bitflip.1 2 [4660] (by norm_num)
      (by intro v hv; fin_cases hv; norm_num) (by norm_num),
   C7_response_roundtrip_and_bitflip.2 2 0 1 3 5 (by norm_num) (by norm_num)
      (by norm_num) (by norm_num) (by norm_num)⟩

/-! ## C8 — response validation order -/

/-- C8 counterexample: the 5-byte frame `[2, 3, 2, 81, 49]` (valid CRC,
slave 2, function 3, byte count 2) for `count = 1` is shorter than
`5 + 2×count = 7` bytes, yet it is *not* rejected by the first check as the
claim states: the code's minimum-length precheck is only `len ≥ 5`, so the
frame passes the length, CRC, slave, function and byte-count checks and
fails only at register extraction (where Python raises `struct.error`, a
different exception from the `ValueError` of the listed checks). -/
theorem C8_counterexample :
    List.length [2, 3, 2, 81, 49] < 5 + 2 * 1 ∧
    parse_read_holding_registers [2, 3, 2, 81, 49] 2 1 = .error .shortData ∧
    parse_read_holding_registers [2, 3, 2, 81, 49] 2 1 ≠ .error .shortResp := by
  have hp : parse_read_holding_registers [2, 3, 2, 81, 49] 2 1
      = .error .shortData := by rfl
  refine ⟨by norm_num, hp, ?_⟩
  rw [hp]
  intro h
  exact ParseErr.noConfusion (Except.error.inj h)

/-- C8 (amended): the parser's checks run in order, rejecting at the first
failure: minimum length of **5 bytes** (not 5 + 2×count); CRC16 over all
bytes before the trailing 2-byte little-endian CRC equals that trailer;
first payload byte equals the slave address; second byte equals 0x03, where
a function byte with the high bit set is reported as a Modbus exception
whose code is the single following byte; declared byte count equals
2×count; and a frame whose remaining data is shorter than 2×count bytes is
rejected only afterwards, at register extraction.  A response failing any
check never yields register values. -/
theorem C8_parse_check_order (resp : List Nat) (slave rc : Nat) :
    (resp.length < 5 →
      parse_read_holding_registers resp slave rc = .error .shortResp) ∧
    (5 ≤ resp.length →
      modbus_crc16 (resp.take (resp.length - 2))
          ≠ resp.getD (resp.length - 2) 0 + 256 * resp.getD (resp.length - 1) 0 →
      parse_read_holding_registers resp slave rc = .error .badCrc) ∧
    (5 ≤ resp.length →
      modbus_crc16 (resp.take (resp.length - 2))
          = resp.getD (resp.length - 2) 0 + 256 * resp.getD (resp.length - 1) 0 →
      parse_read_holding_registers resp slave rc
        = parseChecked (resp.take (resp.length - 2)) slave rc) ∧
    (∀ payload : List Nat,
      (payload.getD 0 0 ≠ slave →
        parseChecked payload slave rc = .error (.badSlave (payload.getD 0 0))) ∧
      (payload.getD 0 0 = slave → payload.getD 1 0 ≠ 3 →
        payload.getD 1 0 &&& 0x80 ≠ 0 → 2 < payload.length →
        parseChecked payload slave rc
          = .error (.modbusExc (payload.getD 1 0) ((payload.getD 2 0 : Nat) : Int))) ∧
      (payload.getD 0 0 = slave → payload.getD 1 0 ≠ 3 →
        payload.getD 1 0 &&& 0x80 = 0 →
        parseChecked payload slave rc = .error (.badFunc (payload.getD 1 0))) ∧
      (payload.getD 0 0 = slave → payload.getD 1 0 = 3 →
        payload.getD 2 0 ≠ 2 * rc →
        parseChecked payload slave rc = .error .badByteCount) ∧
      (payload.getD 0 0 = slave → payload.getD 1 0 = 3 →
        payload.getD 2 0 = 2 * rc →
        ((payload.drop 3).take (payload.getD 2 0)).length ≠ 2 * rc →
        parseChecked payload slave rc = .error .shortData)) ∧
    (∀ vals, parse_read_holding_registers resp slave rc = .ok vals →
      5 ≤ resp.length ∧
      modbus_crc16 (resp.take (resp.length - 2))
        = resp.getD (resp.length - 2) 0 + 256 * resp.getD (resp.length - 1) 0 ∧
      (resp.take (resp.length - 2)).getD 0 0 = slave ∧
      (resp.take (resp.length - 2)).getD 1 0 = 3 ∧
      (resp.take (resp.length - 2)).getD 2 0 = 2 * rc ∧
      (((resp.take (resp.length - 2)).drop 3).take
          ((resp.take (resp.length - 2)).getD 2 0)).length = 2 * rc) := by
  refine ⟨fun h => ?_, fun h5 hcrc => ?_, fun h5 hcrc => ?_,
    fun payload => ⟨fun h0 => ?_, fun h0 h1 h80 hlen => ?_, fun h0 h1 h80 => ?_,
      fun h0 h1 h2 => ?_, fun h0 h1 h2 h3 => ?_⟩, fun vals hok => ?_⟩
  · simp [parse_read_holding_registers, h]
  · simp only [parse_read_holding_registers]
    rw [if_neg (by omega), if_pos hcrc]
  · simp only [parse_read_holding_registers]
    rw [if_neg (by omega), if_neg (by simpa using hcrc)]
  · simp only [parseChecked]
    rw [if_pos h0]
  · simp only [parseChecked]
    rw [if_neg (not_not_intro h0), if_pos h1, if_pos h80, if_pos hlen]
  · simp only [parseChecked]
    rw [if_neg (not_not_intro h0), if_pos h1, if_neg (not_not_intro h80)]
  · simp only [parseChecked]
    rw [if_neg (not_not_intro h0), if_neg (not_not_intro h1), if_pos h2]
  · simp only [parseChecked]
    rw [if_neg (not_not_intro h0), if_neg (not_not_intro h1),
      if_neg (not_not_intro h2), if_pos h3]
  · by_cases h5 : resp.length < 5
    · rw [parse_read_holding_registers, if_pos h5] at hok
      exact absurd hok (by simp)
    · simp only [parse_read_holding_registers, if_neg h5] at hok
      by_cases hcrc : modbus_crc16 (resp.take (resp.length - 2))
          ≠ resp.getD (resp.length - 2) 0 + 256 * resp.getD (resp.length - 1) 0
      · rw [if_pos hcrc] at hok
        exact absurd hok (by simp)
      · rw [if_neg hcrc] at hok
        push_neg at hcrc
        refine ⟨by omega, hcrc, ?_⟩
        simp only [parseChecked] at hok
        by_cases g0 : (resp.take (resp.length - 2)).getD 0 0 ≠ slave
        · rw [if_pos g0] at hok
          exact absurd hok (by simp)
        · rw [if_neg g0] at hok
          push_neg at g0
          by_cases g1 : (resp.take (resp.length - 2)).getD 1 0 ≠ 3
          · rw [if_pos g1] at hok
            split_ifs at hok
          · rw [if_neg g1] at hok
            push_neg at g1
            by_cases g2 : (resp.take (resp.length - 2)).getD 2 0 ≠ 2 * rc
            · rw [if_pos g2] at hok
              exact absurd hok (by simp)
            · rw [if_neg g2] at hok
              push_neg at g2
              by_cases g3 : (((resp.take (resp.length - 2)).drop 3).take
                  ((resp.take (resp.length - 2)).getD 2 0)).length ≠ 2 * rc
              · rw [if_pos g3] at hok
                exact absurd hok (by simp)
              · push_neg at g3
                exact ⟨g0, g1, g2, g3⟩

/-- Witness for C6's amended theorem: a concrete succeeding call sequence
yields a write trace with no adjacent duplicate timestamps. -/
theorem C6_no_consecutive_duplicate_writes_witness :
    ((runWrites none [(true, 1, "a"), (true, 1, "b")]).2).Chain' (· ≠ ·) :=
  (C6_no_consecutive_duplicate_writes none [(true, 1, "a"), (true, 1, "b")]).1

/-- Witness for C8's amended theorem: one concrete frame per check. -/
theorem C8_parse_check_order_witness :
    parse_read_holding_registers [2, 3] 2 1 = .error .shortResp ∧
    parse_read_holding_registers [9, 3, 2, 81, 49] 9 1 = .error .badCrc ∧
    parseChecked [9, 3, 2] 2 1 = .error (.badSlave 9) ∧
    parseChecked [2, 131, 7] 2 1 = .error (.modbusExc 131 7) ∧
    parseChecked [2, 4, 2] 2 1 = .error (.badFunc 4) ∧
    parseChecked [2, 3, 4] 2 1 = .error .badByteCount ∧
    parseChecked [2, 3, 2] 2 1 = .error .shortData := by
  refine ⟨(C8_parse_check_order [2, 3] 2 1).1 (by norm_num),
    (C8_parse_check_order [9, 3, 2, 81, 49] 9 1).2.1 (by norm_num) (by decide),
    ((C8_parse_check_order [] 2 1).2.2.2.1 [9, 3, 2]).1 (by decide),
    ((C8_parse_check_order [] 2 1).2.2.2.1 [2, 131, 7]).2.1 rfl (by decide)
      (by decide) (by norm_num),
    ((C8_parse_check_order [] 2 1).2.2.2.1 [2, 4, 2]).2.2.1 rfl (by decide)
      (by decide),
    ((C8_parse_check_order [] 2 1).2.2.2.1 [2, 3, 4]).2.2.2.1 rfl rfl (by decide),
    ((C8_parse_check_order [] 2 1).2.2.2.1 [2, 3, 2]).2.2.2.2 rfl rfl rfl
      (by decide)⟩

end FireIoT
